import Mathlib

/-!
Shallow embedding of the country-connect-canvas-graph visualization core
(src/src/components/CountryGraph.tsx) and proofs of the spec's claims.

The graph model builder lives in the first useEffect of CountryGraph.tsx
(lines 57-76): it scans the adjacency pair list, collects unique country
names into a JS Set (insertion-ordered), keeps the pair list as the link
list, derives each node's neighbor list by filtering the links, and then
sorts the node array by descending neighbor count with a stable comparator.
Derived styling (radius, font size, fill argument) and the click-toast
text come from lines 121-142 and 202-211; the drag handlers from lines
283-305; the zoom scale extent from line 226; the two useEffect hooks and
their dependency arrays (lines 47-270 and 272-280) drive the reaction to
a forceStrength change.
-/

/-- A graph node as built by CountryGraph.tsx: country name plus the
derived neighbor-name list. -/
structure CountryNode where
  id : String
  neighbors : List String
deriving DecidableEq, Repr

/-- The unique country names in first-seen order: the JS
`Set<string>` filled by `countries.add(source); countries.add(target)`
over the pair list, read back with `Array.from` (insertion order). -/
def buildCountries (pairs : List (String × String)) : List String :=
  pairs.foldl (fun acc e =>
    let acc1 := if acc.contains e.1 then acc else acc ++ [e.1]
    if acc1.contains e.2 then acc1 else acc1 ++ [e.2]) []

/-- The link list: `links.push({ source, target })` for each entry, in
input order. -/
def buildLinks (pairs : List (String × String)) : List (String × String) :=
  pairs.map (fun e => (e.1, e.2))

/-- Neighbor derivation for one node id, exactly the TypeScript
`links.filter(l => l.source === id || l.target === id)
      .map(l => l.source === id ? l.target : l.source)`. -/
def neighborsOf (pairs : List (String × String)) (id : String) : List String :=
  ((buildLinks pairs).filter (fun l => l.1 == id || l.2 == id)).map
    (fun l => if l.1 == id then l.2 else l.1)

/-- The node array before sorting: one record per unique country, in
first-seen order, each with its derived neighbor list. -/
def buildNodesUnsorted (pairs : List (String × String)) : List CountryNode :=
  (buildCountries pairs).map (fun id => ⟨id, neighborsOf pairs id⟩)

/-- One step of the stable descending-degree sort: insert `x` before the
first element of strictly smaller degree, after all elements of greater
or equal degree.  Together with the left fold below this reproduces the
stable JS `nodes.sort((a, b) => b.neighbors.length - a.neighbors.length)`. -/
def insertNode (x : CountryNode) : List CountryNode → List CountryNode
  | [] => [x]
  | y :: ys =>
    if y.neighbors.length < x.neighbors.length then x :: y :: ys
    else y :: insertNode x ys

/-- Stable sort by descending neighbor count (ES2019 `Array.prototype.sort`
is stable; the comparator is `b.neighbors.length - a.neighbors.length`). -/
def sortNodes (l : List CountryNode) : List CountryNode :=
  l.foldl (fun acc x => insertNode x acc) []

/-- The final node array returned by the builder (lines 68-76). -/
def buildNodes (pairs : List (String × String)) : List CountryNode :=
  sortNodes (buildNodesUnsorted pairs)

/-- Base circle radius, line 122: `4 + Math.min(d.neighbors.length / 2, 5)`. -/
def nodeRadius (n : Nat) : ℚ := 4 + min ((n : ℚ) / 2) 5

/-- Hovered circle radius, line 153: `8 + Math.min(d.neighbors.length / 2, 5)`. -/
def hoverRadius (n : Nat) : ℚ := 8 + min ((n : ℚ) / 2) 5

/-- Label font size, line 140: `10 + Math.min(d.neighbors.length / 10, 2)`. -/
def fontSize (n : Nat) : ℚ := 10 + min ((n : ℚ) / 10) 2

/-- Node fill, lines 123-129: the color scale is applied to the clamped
argument `Math.min(d.neighbors.length, 40)`; the scale itself (a d3 HCL
interpolator) is kept abstract as a function out of ℚ. -/
def nodeFill {α : Type} (colorScale : ℚ → α) (n : Nat) : α :=
  colorScale (min (n : ℚ) 40)

/-- Title of the click toast, line 204: the template literal
`${d.id} has borders with ${d.neighbors.length} countries`. -/
def clickTitle (d : CountryNode) : String :=
  d.id ++ " has borders with " ++ toString d.neighbors.length ++ " countries"

/-- Description of the click toast, lines 205-206:
`d.neighbors.slice(0, 5).join(", ")` followed, when more than 5 neighbors
exist, by the template literal " and ${d.neighbors.length - 5} more...". -/
def clickDescription (d : CountryNode) : String :=
  String.intercalate ", " (d.neighbors.take 5) ++
    (if d.neighbors.length > 5 then
      " and " ++ toString (d.neighbors.length - 5) ++ " more..." else "")

/-- Written from the spec's words for comparison with `clickDescription`:
the description lists the first min(5, count) neighbor names and carries
an overflow suffix reporting count − 5 exactly when count > 5. -/
def specClickDescription (d : CountryNode) : String :=
  String.intercalate ", " (d.neighbors.take (min 5 d.neighbors.length)) ++
    (if 5 < d.neighbors.length then
      " and " ++ toString (d.neighbors.length - 5) ++ " more..." else "")

/-- Written from the spec's words for comparison with `clickTitle`: the
notification names the node identity and its neighbor count. -/
def specClickTitle (d : CountryNode) : String :=
  d.id ++ " has borders with " ++ toString d.neighbors.length ++ " countries"

/-- The viewport transform: translation and a uniform scale, as owned by
the d3 zoom behavior attached at lines 225-232. -/
structure ZoomTransform where
  k : ℚ
  x : ℚ
  y : ℚ
deriving DecidableEq, Repr

/-- Lower scale bound from `.scaleExtent([0.1, 4])`, line 226. -/
def scaleMin : ℚ := 1 / 10

/-- Upper scale bound from `.scaleExtent([0.1, 4])`, line 226. -/
def scaleMax : ℚ := 4

/-- The identity transform (`d3.zoomIdentity`). -/
def zoomIdentity : ZoomTransform := ⟨1, 0, 0⟩

/-- A pointer gesture delta: a pan by a translation offset or a zoom by a
multiplicative scale factor. -/
inductive Gesture where
  | pan (dx dy : ℚ)
  | zoomBy (factor : ℚ)
deriving DecidableEq, Repr

/-- Modelled from the spec: the d3 zoom behavior's gesture handling is
library code not present in the repository; per §4.3, a gesture updates
translate/scale and the scale is clamped to the configured extent
(`scaleExtent([0.1, 4])` from line 226), never rejected. -/
def applyGesture (t : ZoomTransform) : Gesture → ZoomTransform
  | .pan dx dy => { t with x := t.x + dx, y := t.y + dy }
  | .zoomBy f => { t with k := min (max (t.k * f) scaleMin) scaleMax }

/-- A whole gesture sequence, applied left to right. -/
def applyGestures (t : ZoomTransform) (gs : List Gesture) : ZoomTransform :=
  gs.foldl applyGesture t

/-- A simulated node's mutable physics state: position, velocity and the
optional drag pin (fx, fy). -/
structure SimNode where
  x : ℚ
  y : ℚ
  vx : ℚ
  vy : ℚ
  fx : Option ℚ
  fy : Option ℚ
deriving DecidableEq, Repr

/-- The simulation scalars touched by the drag handlers: alphaTarget and
whether ticking is running. -/
structure SimState where
  alphaTarget : ℚ
  running : Bool
deriving DecidableEq, Repr

/-- Drag start handler, lines 284-288: on an inactive event boost
alphaTarget to 0.3 and restart, and pin the node at its current position
(`d.fx = d.x; d.fy = d.y`). -/
def dragstarted (active : Bool) (s : SimState) (d : SimNode) : SimState × SimNode :=
  (if active then s else { s with alphaTarget := 3 / 10, running := true },
   { d with fx := some d.x, fy := some d.y })

/-- Drag move handler, lines 290-293: move the pin to the pointer's
simulation-space coordinate (`d.fx = event.x; d.fy = event.y`). -/
def dragged (ex ey : ℚ) (d : SimNode) : SimNode :=
  { d with fx := some ex, fy := some ey }

/-- Drag end handler, lines 295-299: on an inactive event drop alphaTarget
back to 0, and clear the pin (`d.fx = null; d.fy = null`). -/
def dragended (active : Bool) (s : SimState) (d : SimNode) : SimState × SimNode :=
  (if active then s else { s with alphaTarget := 0 },
   { d with fx := none, fy := none })

/-- Modelled from the spec: the per-tick position integration is d3
library code not present in the repository; per §4.2(b), a tick
integrates velocity into position except for pinned nodes, whose position
is forced to the pin value. -/
def tickNode (d : SimNode) : SimNode :=
  { d with
    x := match d.fx with | some px => px | none => d.x + d.vx,
    y := match d.fy with | some py => py | none => d.y + d.vy }

/-- A concrete node used to exercise the drag state machine: at the
origin with unit horizontal velocity and no pin. -/
def demoNode : SimNode := ⟨0, 0, 1, 0, none, none⟩

/-- A concrete settled simulation state. -/
def demoSim : SimState := ⟨0, false⟩

/-- The component state relevant to a forceStrength change: the current
prop value, how many times the build effect has run, the node records
tagged with the build generation that created them (a fresh JS object per
run), the link records likewise, the charge force magnitude and the
simulation alpha. -/
structure ComponentState where
  strength : ℚ
  buildGen : Nat
  nodes : List (Nat × CountryNode)
  links : List (Nat × (String × String))
  chargeStrength : ℚ
  alpha : ℚ
deriving DecidableEq, Repr

/-- The first useEffect (lines 47-270): rebuilds all node and link
records from the pair list (fresh objects, tagged with the new build
generation), creates a new simulation with charge strength
`-forceStrength` and initial alpha 1.  Its dependency array is
`[forceStrength]` (line 270). -/
def runBuildEffect (pairs : List (String × String)) (s : ComponentState) :
    ComponentState :=
  let g := s.buildGen + 1
  { s with
    buildGen := g,
    nodes := (buildNodes pairs).map (fun n => (g, n)),
    links := (buildLinks pairs).map (fun l => (g, l)),
    chargeStrength := -s.strength,
    alpha := 1 }

/-- The second useEffect (lines 272-280): replaces the charge force with
`-forceStrength`, sets alpha to 0.3 and restarts.  Its dependency array
is also `[forceStrength]` (line 280). -/
def runStrengthEffect (s : ComponentState) : ComponentState :=
  { s with chargeStrength := -s.strength, alpha := 3 / 10 }

/-- Initial mount: React runs both effects in declaration order. -/
def mount (pairs : List (String × String)) (v : ℚ) : ComponentState :=
  runStrengthEffect (runBuildEffect pairs
    { strength := v, buildGen := 0, nodes := [], links := [],
      chargeStrength := 0, alpha := 0 })

/-- A forceStrength prop change: React compares each effect's dependency
array with the previous render's; both arrays are `[forceStrength]`, so
when the value changes BOTH effects re-run, in declaration order — the
build effect first, then the strength-update effect. -/
def setStrength (pairs : List (String × String)) (s : ComponentState) (v : ℚ) :
    ComponentState :=
  if v = s.strength then s
  else runStrengthEffect (runBuildEffect pairs { s with strength := v })

/-- The sort order produced by the comparator
`(a, b) => b.neighbors.length - a.neighbors.length`: descending neighbor
count. -/
def degGE (a b : CountryNode) : Prop := b.neighbors.length ≤ a.neighbors.length

lemma insertNode_perm (x : CountryNode) (l : List CountryNode) :
    (insertNode x l).Perm (x :: l) := by
  induction l with
  | nil => exact List.Perm.refl _
  | cons y ys ih =>
    unfold insertNode
    split
    · exact List.Perm.refl _
    · exact (ih.cons y).trans (List.Perm.swap x y ys)

lemma sortNodes_aux_perm (l : List CountryNode) :
    ∀ acc : List CountryNode,
      (l.foldl (fun acc x => insertNode x acc) acc).Perm (l ++ acc) := by
  induction l with
  | nil => intro acc; simp
  | cons x xs ih =>
    intro acc
    have h1 := ih (insertNode x acc)
    have h2 : (xs ++ insertNode x acc).Perm (xs ++ (x :: acc)) :=
      List.Perm.append_left xs (insertNode_perm x acc)
    have h3 : (xs ++ (x :: acc)).Perm (x :: (xs ++ acc)) := List.perm_middle
    simpa using (h1.trans h2).trans h3

lemma sortNodes_perm (l : List CountryNode) : (sortNodes l).Perm l := by
  have h := sortNodes_aux_perm l []
  simpa [sortNodes] using h

lemma insertNode_sorted (x : CountryNode) (l : List CountryNode)
    (hl : List.Sorted degGE l) : List.Sorted degGE (insertNode x l) := by
  induction l with
  | nil => simp [insertNode, List.sorted_singleton]
  | cons y ys ih =>
    rw [List.sorted_cons] at hl
    obtain ⟨hy, hys⟩ := hl
    unfold insertNode
    split
    · rename_i hlt
      rw [List.sorted_cons]
      refine ⟨?_, List.sorted_cons.mpr ⟨hy, hys⟩⟩
      intro z hz
      rcases List.mem_cons.mp hz with h | h
      · subst h; exact Nat.le_of_lt hlt
      · exact Nat.le_trans (hy z h) (Nat.le_of_lt hlt)
    · rename_i hge
      rw [List.sorted_cons]
      refine ⟨?_, ih hys⟩
      intro z hz
      have hz2 : z ∈ x :: ys := (insertNode_perm x ys).mem_iff.mp hz
      rcases List.mem_cons.mp hz2 with h | h
      · subst h; exact Nat.le_of_not_lt hge
      · exact hy z h

lemma sortNodes_aux_sorted (l : List CountryNode) :
    ∀ acc : List CountryNode, List.Sorted degGE acc →
      List.Sorted degGE (l.foldl (fun acc x => insertNode x acc) acc) := by
  induction l with
  | nil => intro acc h; simpa using h
  | cons x xs ih =>
    intro acc h
    exact ih (insertNode x acc) (insertNode_sorted x acc h)

lemma sortNodes_sorted (l : List CountryNode) :
    List.Sorted degGE (sortNodes l) :=
  sortNodes_aux_sorted l [] (by simp)

lemma buildCountries_aux_nodup (ps : List (String × String)) :
    ∀ acc : List String, acc.Nodup →
      (ps.foldl (fun acc e =>
        let acc1 := if acc.contains e.1 then acc else acc ++ [e.1]
        if acc1.contains e.2 then acc1 else acc1 ++ [e.2]) acc).Nodup := by
  induction ps with
  | nil => intro acc h; simpa using h
  | cons p ps ih =>
    intro acc h
    apply ih
    by_cases h1 : acc.contains p.1 <;>
      by_cases h2 : (if acc.contains p.1 then acc else acc ++ [p.1]).contains p.2 <;>
      simp_all [List.nodup_append]
    exact fun h => h2.2 h.symm

lemma buildCountries_nodup (ps : List (String × String)) :
    (buildCountries ps).Nodup :=
  buildCountries_aux_nodup ps [] (by simp)

lemma neighborsOf_cons (a b : String) (ps : List (String × String)) (v : String) :
    neighborsOf ((a, b) :: ps) v =
      if a = v then b :: neighborsOf ps v
      else if b = v then a :: neighborsOf ps v
      else neighborsOf ps v := by
  by_cases ha : a = v <;> by_cases hb : b = v <;>
    simp [neighborsOf, buildLinks, List.filter_cons, ha, hb]

lemma neighborsOf_count (ps : List (String × String)) (v u : String) :
    (neighborsOf ps v).count u =
      ps.countP (fun p => p == (v, u) || p == (u, v)) := by
  induction ps with
  | nil => simp [neighborsOf, buildLinks]
  | cons p ps ih =>
    obtain ⟨a, b⟩ := p
    rw [neighborsOf_cons, List.countP_cons]
    simp only [Bool.or_eq_true, beq_iff_eq, Prod.mk.injEq]
    by_cases ha : a = v
    · rw [if_pos ha]
      by_cases hbu : b = u
      · rw [hbu, List.count_cons_self, ih, if_pos (Or.inl ⟨ha, rfl⟩)]
      · rw [List.count_cons_of_ne (fun h => hbu h.symm), ih,
          if_neg ?_, Nat.add_zero]
        rintro (⟨_, h⟩ | ⟨h1, h2⟩)
        · exact hbu h
        · exact hbu (h2.trans (ha.symm.trans h1))
    · rw [if_neg ha]
      by_cases hb : b = v
      · rw [if_pos hb]
        by_cases hau : a = u
        · rw [hau, List.count_cons_self, ih, if_pos (Or.inr ⟨hau ▸ rfl, hb⟩)]
        · rw [List.count_cons_of_ne (fun h => hau h.symm), ih,
            if_neg ?_, Nat.add_zero]
          rintro (⟨h1, _⟩ | ⟨h1, _⟩)
          · exact ha h1
          · exact hau h1
      · rw [if_neg hb, ih, if_neg ?_, Nat.add_zero]
        rintro (⟨h1, h2⟩ | ⟨h1, h2⟩)
        · exact ha h1
        · exact hb h2

/-- C1: evaluation of the two useEffect hooks at a concrete strength
change.  Both dependency arrays are `[forceStrength]`, so a change from
120 to 150 re-runs the build effect: the build generation advances and
every node record is re-created, contradicting the claim that the node
and edge records are not rebuilt.  The charge magnitude and reheat do
also happen, as the claim requires. -/
theorem C1_strength_change_rebuilds :
    (mount [("A", "B")] 120).buildGen = 1 ∧
    (setStrength [("A", "B")] (mount [("A", "B")] 120) 150).buildGen = 2 ∧
    (setStrength [("A", "B")] (mount [("A", "B")] 120) 150).nodes ≠
      (mount [("A", "B")] 120).nodes ∧
    (setStrength [("A", "B")] (mount [("A", "B")] 120) 150).chargeStrength = -150 ∧
    (setStrength [("A", "B")] (mount [("A", "B")] 120) 150).alpha = 3 / 10 := by
  have hne : ¬ (150 : ℚ) = (mount [("A", "B")] 120).strength := by
    show ¬ (150 : ℚ) = 120
    norm_num
  have hset : setStrength [("A", "B")] (mount [("A", "B")] 120) 150 =
      runStrengthEffect (runBuildEffect [("A", "B")]
        { mount [("A", "B")] 120 with strength := 150 }) := by
    unfold setStrength
    rw [if_neg hne]
  refine ⟨rfl, ?_, ?_, ?_, ?_⟩ <;> rw [hset]
  · rfl
  · decide
  · rfl
  · rfl

/-- C2 counterexample: on input [("A","B"),("B","C")] the first-seen
order of unique names is ["A","B","C"], but the builder's node array —
after the descending-degree sort at line 76 — lists ids as ["B","A","C"],
so the claim that node identities come out in first-seen order is false. -/
theorem C2_counterexample :
    buildCountries [("A", "B"), ("B", "C")] = ["A", "B", "C"] ∧
    (buildNodes [("A", "B"), ("B", "C")]).map (fun n => n.id) ≠
      ["A", "B", "C"] := by
  decide

/-- C2 (amended): the edge list is returned unchanged in order and
content; the node identities are exactly the unique country names of the
input (a duplicate-free permutation of the first-seen-order list), but
the node array is ordered by descending neighbor count (stable sort),
not by first-seen order. -/
theorem C2_build_output (pairs : List (String × String)) :
    buildLinks pairs = pairs ∧
    ((buildNodes pairs).map (fun n => n.id)).Perm (buildCountries pairs) ∧
    (buildCountries pairs).Nodup ∧
    List.Sorted degGE (buildNodes pairs) := by
  refine ⟨?_, ?_, buildCountries_nodup pairs, sortNodes_sorted _⟩
  · simp [buildLinks]
  · have h2 := (sortNodes_perm (buildNodesUnsorted pairs)).map (fun n => n.id)
    have h3 : (buildNodesUnsorted pairs).map (fun n => n.id) =
        buildCountries pairs := by
      rw [buildNodesUnsorted, List.map_map]
      exact List.map_id' (buildCountries pairs)
    rw [h3] at h2
    exact h2

/-- C3 counterexample: with input [("A","B"),("B","A")] — a pair and its
mirrored reverse — the neighbor list of "A" is ["B","B"]: the neighbor
identity "B" occurs twice, refuting the at-most-once part of the claim. -/
theorem C3_counterexample :
    neighborsOf [("A", "B"), ("B", "A")] "A" = ["B", "B"] ∧
    ¬ (neighborsOf [("A", "B"), ("B", "A")] "A").count "B" ≤ 1 := by
  decide

/-- C3 (amended): neighbor computation is undirected — u appears in v's
neighbor list exactly when the input contains (v,u) or (u,v) — but the
list is NOT deduplicated: u occurs once per matching input pair, so a
mirrored or repeated pair yields a duplicate entry. -/
theorem C3_neighbors_undirected (pairs : List (String × String)) (v u : String) :
    (u ∈ neighborsOf pairs v ↔ (v, u) ∈ pairs ∨ (u, v) ∈ pairs) ∧
    (neighborsOf pairs v).count u =
      pairs.countP (fun p => p == (v, u) || p == (u, v)) := by
  refine ⟨?_, neighborsOf_count pairs v u⟩
  rw [← List.count_pos_iff, neighborsOf_count pairs v u, List.countP_pos_iff]
  constructor
  · rintro ⟨p, hp, hpred⟩
    simp only [Bool.or_eq_true, beq_iff_eq] at hpred
    rcases hpred with h | h
    · exact Or.inl (h ▸ hp)
    · exact Or.inr (h ▸ hp)
  · rintro (h | h)
    · exact ⟨(v, u), h, by simp⟩
    · exact ⟨(u, v), h, by simp⟩

/-- C4: on input [("A","B"),("B","C")] the builder yields exactly 3
nodes with neighbor lists A↦["B"], B↦["A","C"], C↦["B"], the 2 input
edges unchanged, and B's derived radius (neighbor count 2) is strictly
larger than that of A and C (neighbor count 1). -/
theorem C4_scenario :
    buildNodes [("A", "B"), ("B", "C")] =
      [⟨"B", ["A", "C"]⟩, ⟨"A", ["B"]⟩, ⟨"C", ["B"]⟩] ∧
    (buildNodes [("A", "B"), ("B", "C")]).length = 3 ∧
    buildLinks [("A", "B"), ("B", "C")] = [("A", "B"), ("B", "C")] ∧
    nodeRadius 2 > nodeRadius 1 := by
  refine ⟨by decide, by decide, by decide, ?_⟩
  unfold nodeRadius
  rw [min_eq_left (by norm_num), min_eq_left (by norm_num)]
  norm_num

/-- C5: the click toast's title names the node identity and its neighbor
count, and its description lists the first min(5, count) neighbor names
with an overflow suffix reporting count − 5 exactly when the node has
strictly more than 5 neighbors. -/
theorem C5_click_notification (d : CountryNode) :
    clickTitle d = specClickTitle d ∧
    clickDescription d = specClickDescription d := by
  refine ⟨rfl, ?_⟩
  unfold clickDescription specClickDescription
  have h : d.neighbors.take (min 5 d.neighbors.length) = d.neighbors.take 5 :=
    List.take_eq_take.mpr (by omega)
  rw [h]

/-- C6: the neighbor-count-derived styling saturates — at or above
count 10 the radius equals its value at 10, at or above 20 the font size
equals its value at 20, and at or above 40 the fill equals its value at
40 for any color scale. -/
theorem C6_styling_saturates (n : ℕ) :
    (10 ≤ n → nodeRadius n = nodeRadius 10) ∧
    (20 ≤ n → fontSize n = fontSize 20) ∧
    (40 ≤ n → ∀ colorScale : ℚ → String,
      nodeFill colorScale n = nodeFill colorScale 40) := by
  refine ⟨fun h => ?_, fun h => ?_, fun h => ?_⟩
  · have hn : (10 : ℚ) ≤ (n : ℚ) := by exact_mod_cast h
    unfold nodeRadius
    rw [min_eq_right (by linarith), min_eq_right (by norm_num)]
  · have hn : (20 : ℚ) ≤ (n : ℚ) := by exact_mod_cast h
    unfold fontSize
    rw [min_eq_right (by linarith), min_eq_right (by norm_num)]
  · intro colorScale
    have hn : (40 : ℚ) ≤ (n : ℚ) := by exact_mod_cast h
    unfold nodeFill
    rw [min_eq_right (by linarith), min_eq_right (by norm_num)]

/-- C6 witness: the saturation equalities hold at the concrete neighbor
count 50, which clears all three thresholds. -/
theorem C6_styling_saturates_witness :
    nodeRadius 50 = nodeRadius 10 ∧ fontSize 50 = fontSize 20 ∧
    nodeFill (fun q => toString q) 50 = nodeFill (fun q => toString q) 40 :=
  ⟨(C6_styling_saturates 50).1 (by decide),
   (C6_styling_saturates 50).2.1 (by decide),
   (C6_styling_saturates 50).2.2 (by decide) (fun q => toString q)⟩

/-- C7: starting from any transform whose scale is within the configured
extent [0.1, 4], every sequence of pan/zoom gestures keeps the scale
within the extent; zoom deltas are clamped (never rejected). -/
theorem C7_viewport_scale_bounds (t : ZoomTransform) (gs : List Gesture)
    (hlo : scaleMin ≤ t.k) (hhi : t.k ≤ scaleMax) :
    scaleMin ≤ (applyGestures t gs).k ∧ (applyGestures t gs).k ≤ scaleMax := by
  induction gs generalizing t with
  | nil => exact ⟨hlo, hhi⟩
  | cons g gs ih =>
    cases g with
    | pan dx dy => exact ih _ hlo hhi
    | zoomBy f =>
      refine ih _ ?_ ?_
      · exact le_min (le_max_right _ _) (by norm_num [scaleMin, scaleMax])
      · exact min_le_right _ _

/-- C7 witness: from the identity transform, a zoom gesture with an
out-of-range factor 100 still leaves the scale within [0.1, 4]. -/
theorem C7_viewport_scale_bounds_witness :
    (scaleMin ≤ zoomIdentity.k ∧ zoomIdentity.k ≤ scaleMax) ∧
    (scaleMin ≤ (applyGestures zoomIdentity
        [Gesture.zoomBy 100, Gesture.pan 3 4]).k ∧
      (applyGestures zoomIdentity [Gesture.zoomBy 100, Gesture.pan 3 4]).k ≤
        scaleMax) :=
  ⟨⟨by norm_num [scaleMin, zoomIdentity], by norm_num [scaleMax, zoomIdentity]⟩,
   C7_viewport_scale_bounds zoomIdentity [Gesture.zoomBy 100, Gesture.pan 3 4]
     (by norm_num [scaleMin, zoomIdentity]) (by norm_num [scaleMax, zoomIdentity])⟩

/-- C8: the drag state machine pins a node at its current position on
pointer-down, moves the pin to the pointer's simulation-space coordinate
on each pointer-move (the tick then holds the node at the pin), and on
pointer-up clears both pin components, after which a tick moves the node
again (it is not frozen at the release point). -/
theorem C8_drag_pin_lifecycle (active1 active2 : Bool) (s1 s2 : SimState)
    (d : SimNode) (ex ey : ℚ) (hvx : d.vx ≠ 0) :
    (dragstarted active1 s1 d).2.fx = some d.x ∧
    (dragstarted active1 s1 d).2.fy = some d.y ∧
    (dragged ex ey (dragstarted active1 s1 d).2).fx = some ex ∧
    (dragged ex ey (dragstarted active1 s1 d).2).fy = some ey ∧
    (tickNode (dragged ex ey (dragstarted active1 s1 d).2)).x = ex ∧
    (dragended active2 s2 (dragged ex ey (dragstarted active1 s1 d).2)).2.fx
      = none ∧
    (dragended active2 s2 (dragged ex ey (dragstarted active1 s1 d).2)).2.fy
      = none ∧
    (tickNode (dragended active2 s2
        (dragged ex ey (dragstarted active1 s1 d).2)).2).x ≠
      (dragended active2 s2 (dragged ex ey (dragstarted active1 s1 d).2)).2.x := by
  refine ⟨rfl, rfl, rfl, rfl, rfl, rfl, rfl, ?_⟩
  simp only [dragstarted, dragged, dragended, tickNode]
  exact fun hc => hvx (by linarith)

/-- C8 witness: dragging the demo node to the simulation-space point
(50, 50) and releasing leaves it unpinned, and the next tick moves it
away from the release point. -/
theorem C8_drag_pin_lifecycle_witness :
    demoNode.vx ≠ 0 ∧
    ((dragstarted false demoSim demoNode).2.fx = some demoNode.x ∧
     (dragstarted false demoSim demoNode).2.fy = some demoNode.y ∧
     (dragged 50 50 (dragstarted false demoSim demoNode).2).fx = some 50 ∧
     (dragged 50 50 (dragstarted false demoSim demoNode).2).fy = some 50 ∧
     (tickNode (dragged 50 50 (dragstarted false demoSim demoNode).2)).x = 50 ∧
     (dragended false demoSim
        (dragged 50 50 (dragstarted false demoSim demoNode).2)).2.fx = none ∧
     (dragended false demoSim
        (dragged 50 50 (dragstarted false demoSim demoNode).2)).2.fy = none ∧
     (tickNode (dragended false demoSim
        (dragged 50 50 (dragstarted false demoSim demoNode).2)).2).x ≠
       (dragended false demoSim
        (dragged 50 50 (dragstarted false demoSim demoNode).2)).2.x) :=
  ⟨by norm_num [demoNode],
   C8_drag_pin_lifecycle false false demoSim demoSim demoNode 50 50
     (by norm_num [demoNode])⟩

/-- C9: the graph model builder is deterministic — it is a pure function
of the input pair list, so two runs on equal inputs yield equal node
arrays (same order, same neighbor lists) and equal link lists; the only
tie-breaking (equal neighbor counts in the sort) is resolved by the
stable insertion order, deterministically. -/
theorem C9_build_deterministic (ps qs : List (String × String)) (h : ps = qs) :
    buildNodes ps = buildNodes qs ∧ buildLinks ps = buildLinks qs := by
  subst h
  exact ⟨rfl, rfl⟩

/-- C9 witness: two runs on the concrete input [("A","B")] agree. -/
theorem C9_build_deterministic_witness :
    ([("A", "B")] : List (String × String)) = [("A", "B")] ∧
    (buildNodes [("A", "B")] = buildNodes [("A", "B")] ∧
     buildLinks [("A", "B")] = buildLinks [("A", "B")]) :=
  ⟨rfl, C9_build_deterministic [("A", "B")] [("A", "B")] rfl⟩

/-- C10: the derived styling values are bounded — base radius in [4, 9],
hovered radius in [8, 13], font size in [10, 12] — and each is monotone
non-decreasing in the neighbor count. -/
theorem C10_styling_bounds_monotone (n m : ℕ) (h : n ≤ m) :
    (4 ≤ nodeRadius n ∧ nodeRadius n ≤ 9 ∧ nodeRadius n ≤ nodeRadius m) ∧
    (8 ≤ hoverRadius n ∧ hoverRadius n ≤ 13 ∧ hoverRadius n ≤ hoverRadius m) ∧
    (10 ≤ fontSize n ∧ fontSize n ≤ 12 ∧ fontSize n ≤ fontSize m) := by
  have hc : (n : ℚ) ≤ (m : ℚ) := by exact_mod_cast h
  have a0 : (0 : ℚ) ≤ min ((n : ℚ) / 2) 5 := le_min (by positivity) (by norm_num)
  have a5 : min ((n : ℚ) / 2) 5 ≤ 5 := min_le_right _ _
  have am : min ((n : ℚ) / 2) 5 ≤ min ((m : ℚ) / 2) 5 :=
    min_le_min (by linarith) le_rfl
  have b0 : (0 : ℚ) ≤ min ((n : ℚ) / 10) 2 := le_min (by positivity) (by norm_num)
  have b2 : min ((n : ℚ) / 10) 2 ≤ 2 := min_le_right _ _
  have bm : min ((n : ℚ) / 10) 2 ≤ min ((m : ℚ) / 10) 2 :=
    min_le_min (by linarith) le_rfl
  unfold nodeRadius hoverRadius fontSize
  refine ⟨⟨by linarith, by linarith, by linarith⟩,
    ⟨by linarith, by linarith, by linarith⟩,
    ⟨by linarith, by linarith, by linarith⟩⟩

/-- C10 witness: the bounds and monotonicity hold at the concrete
neighbor counts 3 ≤ 7. -/
theorem C10_styling_bounds_monotone_witness :
    (3 : ℕ) ≤ 7 ∧
    ((4 ≤ nodeRadius 3 ∧ nodeRadius 3 ≤ 9 ∧ nodeRadius 3 ≤ nodeRadius 7) ∧
     (8 ≤ hoverRadius 3 ∧ hoverRadius 3 ≤ 13 ∧ hoverRadius 3 ≤ hoverRadius 7) ∧
     (10 ≤ fontSize 3 ∧ fontSize 3 ≤ 12 ∧ fontSize 3 ≤ fontSize 7)) :=
  ⟨by decide, C10_styling_bounds_monotone 3 7 (by decide)⟩
